import Mathlib

/-!
# Verification of the `ais` AIS/NMEA decoder (sentence layer and message layer)

A shallow embedding, in Lean, of the decoder in `src/`:

* the armor codec `unarmor` (`src/messages/mod.rs`),
* the message-type dispatcher `parse` (`src/messages/mod.rs`),
* the bit-level field parsers (`src/messages/parsers.rs`, `src/messages/common.rs`,
  `src/messages/navigation.rs`),
* the NMEA sentence framer and the fragment reassembler (`src/sentence.rs`).

Bytes are modelled as `Nat` (callers supply values `< 256`; ASCII inputs are built
with `strBytes`).  Rust `u8`/`u32` arithmetic that can wrap is written with explicit
`% 256` / `% 2 ^ 32`.  Fallible Rust functions returning `Result` are modelled with
`Except Error`.  Rust panics (index out of range, integer overflow in debug builds)
are modelled as distinguished `Error.nmea "panicked: ..."` values; the spot where the
source panics is noted at each such site.
-/

deriving instance DecidableEq for Except

namespace Ais

/-- Bytes of the wire input, each intended `< 256`. -/
abbrev Bytes := List Nat

/-- The crate error type, from `src/errors.rs` (`std`/`alloc` build):
`Error::Nmea { msg: String }` and `Error::Checksum { expected, found }`. -/
inductive Error where
  | nmea (msg : String)
  | checksum (expected found : Nat)
deriving DecidableEq, Repr

/-- ASCII bytes of a string literal (all our inputs are 7-bit ASCII). -/
def strBytes (s : String) : Bytes := s.data.map Char.toNat

/-! ## Bit-level primitives

The Rust code reads bits via `nom`'s big-endian, MSB-first bit reader over a byte
slice.  We model a bit cursor as the full byte list plus an absolute bit offset;
`streamBit bytes j` is bit `j` of the stream: bit `7 - j % 8` of byte `j / 8`. -/

/-- Bit `j` of the MSB-first bit stream over `bytes`. -/
def streamBit (bytes : Bytes) (j : Nat) : Bool :=
  Nat.testBit (bytes.getD (j / 8) 0) (7 - j % 8)

/-- A bit-reader position: the byte buffer plus the absolute bit offset. -/
abbrev BitCursor := Bytes × Nat

/-- Value of `n` bits MSB-first starting at absolute offset `off`
(the accumulation order of `nom`'s `take`). -/
def bitsValue (bytes : Bytes) (off : Nat) : Nat → Nat
  | 0 => 0
  | n + 1 => bitsValue bytes off n * 2 + (if streamBit bytes (off + n) then 1 else 0)

/-- `nom::bits::complete::take(n)`: read `n` bits MSB-first, or fail (`Eof`)
when fewer than `n` bits remain. -/
def takeBitsE (n : Nat) (inp : BitCursor) : Except Error (BitCursor × Nat) :=
  if inp.2 + n ≤ inp.1.length * 8 then
    .ok ((inp.1, inp.2 + n), bitsValue inp.1 inp.2 n)
  else
    .error (.nmea "Parser error: Eof")

/-! ## Armor codec — `unarmor` (`src/messages/mod.rs`, lines 164–219) -/

/-- The 6-bit value of one armored byte (`src/messages/mod.rs`, lines 179–186):
`48..=87 ↦ b - 48`, `96..=119 ↦ b - 56`, otherwise `Value out of range`. -/
def armorByteValue (b : Nat) : Except Error Nat :=
  if 48 ≤ b ∧ b ≤ 87 then .ok (b - 48)
  else if 96 ≤ b ∧ b ≤ 119 then .ok (b - 56)
  else .error (.nmea "Value out of range")

/-- `buf[i] |= v` (no-op out of bounds; `unarmor` only uses it in bounds). -/
def orInto (buf : Bytes) (i v : Nat) : Bytes :=
  buf.set i (buf.getD i 0 ||| v)

/-- The packing loop of `unarmor`: for each armored byte, OR its 6-bit value
(left-aligned in a `u8`, i.e. `<< 2`) into the output at bit offset `offset`,
spilling into the next byte when `offset % 8 > 2`.  Shifts are on `u8`, hence
the `% 256` on the left-shift spill. -/
def packLoop : Bytes → Nat → Bytes → Except Error Bytes
  | [], _, buf => .ok buf
  | b :: rest, offset, buf =>
    match armorByteValue b with
    | .error e => .error e
    | .ok v =>
      let unarmored := v <<< 2
      let offsetByte := offset / 8
      let offsetBit := offset % 8
      let buf1 := orInto buf offsetByte (unarmored >>> offsetBit)
      let buf2 := if offsetBit > 2 then
          orInto buf1 (offsetByte + 1) ((unarmored <<< (8 - offsetBit)) % 256)
        else buf1
      packLoop rest (offset + 6) buf2

/-- `unarmor(data, fill_bits)` (`src/messages/mod.rs`, lines 164–219).

The output has `⌈6·N/8⌉` bytes; after packing, when `fill_bits ≠ 0` the trailing
fill bits of the final 6-bit chunk are masked to zero in the last byte and, when
the fill spills over, in the byte before it.

Note: with empty `data` and `fill_bits ≠ 0` the Rust source evaluates
`byte_count - 1` with `byte_count = 0` and indexes `output[...]` — a panic
(usize underflow / index out of range).  That panic is modelled as the
`"panicked: index out of range"` error below. -/
def unarmor (data : Bytes) (fillBits : Nat) : Except Error Bytes :=
  let bitCount := data.length * 6
  let byteCount := bitCount / 8 + (if bitCount % 8 ≠ 0 then 1 else 0)
  match packLoop data 0 (List.replicate byteCount 0) with
  | .error e => .error e
  | .ok out =>
    if fillBits ≠ 0 then
      if byteCount = 0 then
        .error (.nmea "panicked: index out of range")
      else
        let bitsInFinalByte := if bitCount % 8 = 0 then 8 else bitCount % 8
        let finalIdx := byteCount - 1
        let shift := (8 - bitsInFinalByte) + min fillBits bitsInFinalByte
        let mask := if shift ≤ 7 then (0xff <<< shift) % 256 else 0
        let out1 := out.set finalIdx (out.getD finalIdx 0 &&& mask)
        let out2 :=
          if bitsInFinalByte < fillBits then
            out1.set (finalIdx - 1)
              (out1.getD (finalIdx - 1) 0 &&& ((0xff <<< (fillBits - bitsInFinalByte)) % 256))
          else out1
        .ok out2
    else
      .ok out

/-! ## Shared field parsers -/

/-- `message_type` (`src/messages/parsers.rs`, lines 105–115): the first 6 bits
of the (byte-aligned) buffer.  `bits(take_bits(6))` fails when fewer than 6 bits
are available, i.e. on an empty buffer. -/
def messageType (d : Bytes) : Except Error Nat :=
  match takeBitsE 6 (d, 0) with
  | .ok (_, v) => .ok v
  | .error e => .error e

/-- `signed_i32(input, len)` (`src/messages/parsers.rs`, lines 145–156), at the
bit-pattern level (`u32` patterns, converted to a signed value at the end).

The source asserts `len <= 32`, reads `len` bits into an `i32`, then computes
`mask = !0i32 << len` and sign-extends by inspecting `(num << (32 - len)).leading_zeros()`.
Shift amounts are reduced `% 32` (Rust release semantics; a debug build panics on
the `len = 32` shift `!0 << 32`, noted below), and shifted-out value bits are
discarded (`% 2 ^ 32`), as Rust `<<` does on `i32`. -/
def toInt32 (u : Nat) : Int :=
  if u < 2 ^ 31 then (u : Int) else (u : Int) - 2 ^ 32

/-- `!x` on a `u32` bit pattern. -/
def notPat32 (x : Nat) : Nat := x ^^^ (2 ^ 32 - 1)

def signed_i32 (inp : BitCursor) (len : Nat) : Except Error (BitCursor × Int) :=
  -- Rust: `assert!(len <= size_of::<i32>() * 8)` — a panic for len > 32.
  if len > 32 then .error (.nmea "panicked: assertion failed: len <= 32")
  else
    match takeBitsE len inp with
    | .error e => .error e
    | .ok (inp', u) =>
      let numPat := u % 2 ^ 32
      -- `!0i32 << len`: for `len = 32` a debug build panics (shift overflow);
      -- release reduces the shift amount `% 32`, which is what is modelled here.
      let maskPat := ((2 ^ 32 - 1) <<< (len % 32)) % 2 ^ 32
      let shiftedPat := (numPat <<< ((32 - len) % 32)) % 2 ^ 32
      -- `leading_zeros() == 0` iff bit 31 of the shifted pattern is set.
      let resultPat :=
        if 2 ^ 31 ≤ shiftedPat then numPat ||| maskPat
        else notPat32 maskPat &&& numPat
      .ok (inp', toInt32 resultPat)

/-- `parse_hour` (`src/messages/parsers.rs`, lines 44–46): a plain 5-bit read,
no sentinel handling — the raw value is always returned.  This is the variant
imported by the type-11 decoder (`src/messages/utc_date_response.rs`). -/
def parseHourNoSentinel (inp : BitCursor) : Except Error (BitCursor × Nat) :=
  takeBitsE 5 inp

/-- `parse_hour` (`src/messages/common.rs`, lines 64–70), the variant imported by
the type-5 decoder (`src/messages/static_and_voyage_related_data.rs`) for the ETA
hour: `0..=23 ↦ Some hour`, `24 ↦ None`, `25..=31 ↦ Err("Invalid hour")`. -/
def parseHourCommon (inp : BitCursor) : Except Error (BitCursor × Option Nat) :=
  match takeBitsE 5 inp with
  | .error e => .error e
  | .ok (inp', v) =>
    if v ≤ 23 then .ok (inp', some v)
    else if v = 24 then .ok (inp', none)
    else .error (.nmea "Invalid hour")

/-- `parse_longitude` (`src/messages/navigation.rs`, lines 11–17).  The `f32`
division `data as f32 / 600_000.0` is modelled exactly over `ℚ`.  Match arms in
source order: the in-range arm, the `108_600_000` sentinel arm, the error arm. -/
def parse_longitude (data : Int) : Except Error (Option ℚ) :=
  if -108000000 ≤ data ∧ data ≤ 108000000 then .ok (some ((data : ℚ) / 600000))
  else if data = 108600000 then .ok none
  else .error (.nmea "Invalid longitude")

/-- `sixbit_to_ascii` (`src/messages/parsers.rs`, lines 117–132):
`0..=31 ↦ +64`, `32..=63 ↦ identity`, else an error (unreachable from 6-bit reads). -/
def sixbitToAscii (v : Nat) : Except Error Nat :=
  if v ≤ 31 then .ok (v + 64)
  else if v ≤ 63 then .ok v
  else .error (.nmea "Illegal 6-bit character")

/-- Read `n` 6-bit characters, mapping each through `sixbit_to_ascii`
(the `count(map_res(take_bits(6), sixbit_to_ascii), n)` of `parse_6bit_ascii`). -/
def readSixbitChars : Nat → BitCursor → Except Error (BitCursor × List Nat)
  | 0, inp => .ok (inp, [])
  | n + 1, inp =>
    match takeBitsE 6 inp with
    | .error e => .error e
    | .ok (inp', v) =>
      match sixbitToAscii v with
      | .error e => .error e
      | .ok c =>
        match readSixbitChars n inp' with
        | .error e => .error e
        | .ok (inp'', cs) => .ok (inp'', c :: cs)

/-- `str::trim_end_matches(c)` on a byte list: drop every trailing `c`. -/
def dropTrailing (c : Nat) (l : List Nat) : List Nat :=
  ((l.reverse.dropWhile (· = c)).reverse)

/-- `parse_6bit_ascii(input, size)` (`src/messages/parsers.rs`, lines 66–103):
decode `size / 6` characters of 6-bit ASCII, then trim the resulting string with
`trim_start().trim_end_matches('@').trim_end()`, in that order.  The decoded
characters lie in `32..=95`, so the only whitespace the two `trim`s can remove is
the space `32`, and the `from_utf8` check never fails (pure ASCII). -/
def parse6bitAscii (inp : BitCursor) (size : Nat) : Except Error (BitCursor × List Nat) :=
  match readSixbitChars (size / 6) inp with
  | .error e => .error e
  | .ok (inp', chars) =>
    .ok (inp', dropTrailing 32 (dropTrailing 64 (chars.dropWhile (· = 32))))

/-! ## Message dispatcher — `parse` (`src/messages/mod.rs`, lines 77–148)

`parse` reads the 6-bit message type and dispatches to the per-type decoder.
`AisMsgClass` records which `AisMessage` variant is selected; the per-type field
decoding (which has its own failure modes) is not modelled, so theorems that
depend on a successful full decode use the sentence layer with `decode = false`.
Note the dispatch table: types 22, 23, 25 and 26 (and 0, 28–63) fall through to
the `Unimplemented type` arm — in particular type 23, although the tree carries
a `GroupAssignmentCommand` decoder (`src/messages/group_assignment_command.rs`),
which `mod.rs` neither declares as a module nor dispatches to. -/

inductive AisMsgClass where
  | PositionReport
  | BaseStationReport
  | StaticAndVoyageRelatedData
  | BinaryAcknowledgeMessage
  | BinaryAddressedMessage
  | BinaryBroadcastMessage
  | StandardAircraftPositionReport
  | UtcDateInquiry
  | UtcDateResponse
  | AddressedSafetyRelatedMessage
  | SafetyRelatedAcknowledgment
  | SafetyRelatedBroadcastMessage
  | Interrogation
  | AssignmentModeCommand
  | DgnssBroadcastBinaryMessage
  | StandardClassBPositionReport
  | ExtendedClassBPositionReport
  | DataLinkManagementMessage
  | AidToNavigationReport
  | StaticDataReport
  | LongRangeAisBroadcastMessage
deriving DecidableEq, Repr

/-- The match of `messages::parse` on the 6-bit message type, arm for arm. -/
def dispatchType (t : Nat) : Except Error AisMsgClass :=
  if 1 ≤ t ∧ t ≤ 3 then .ok .PositionReport
  else if t = 4 then .ok .BaseStationReport
  else if t = 5 then .ok .StaticAndVoyageRelatedData
  else if t = 7 then .ok .BinaryAcknowledgeMessage
  else if t = 6 then .ok .BinaryAddressedMessage
  else if t = 8 then .ok .BinaryBroadcastMessage
  else if t = 9 then .ok .StandardAircraftPositionReport
  else if t = 10 then .ok .UtcDateInquiry
  else if t = 11 then .ok .UtcDateResponse
  else if t = 12 then .ok .AddressedSafetyRelatedMessage
  else if t = 13 then .ok .SafetyRelatedAcknowledgment
  else if t = 14 then .ok .SafetyRelatedBroadcastMessage
  else if t = 15 then .ok .Interrogation
  else if t = 16 then .ok .AssignmentModeCommand
  else if t = 17 then .ok .DgnssBroadcastBinaryMessage
  else if t = 18 then .ok .StandardClassBPositionReport
  else if t = 19 then .ok .ExtendedClassBPositionReport
  else if t = 20 then .ok .DataLinkManagementMessage
  else if t = 21 then .ok .AidToNavigationReport
  else if t = 24 then .ok .StaticDataReport
  else if t = 27 then .ok .LongRangeAisBroadcastMessage
  else .error (.nmea "Unimplemented type")

/-- `messages::parse(unarmored)`: read the message type, dispatch. -/
def messagesParse (unarmored : Bytes) : Except Error AisMsgClass :=
  match messageType unarmored with
  | .error e => .error e
  | .ok t => dispatchType t

/-! ## Sentence layer (`src/sentence.rs`)

The framer `parse_nmea_sentence` / `parse_ais_sentence` is a chain of `nom`
byte combinators; each is modelled by a small function on `Bytes` returning
`Except Error (rest, output)` in `nom`'s `(remaining, value)` order. -/

/-- `TalkerId` (`src/sentence.rs`, lines 44–85). -/
inductive TalkerId where
  | AB | AD | AI | AN | AR | AS | AT | AX | BS | SA | Unknown
deriving DecidableEq, Repr

/-- `From<&[u8]> for TalkerId`: the two talker bytes. -/
def talkerOf (b : Bytes) : TalkerId :=
  if b = strBytes "AB" then .AB
  else if b = strBytes "AD" then .AD
  else if b = strBytes "AI" then .AI
  else if b = strBytes "AN" then .AN
  else if b = strBytes "AR" then .AR
  else if b = strBytes "AS" then .AS
  else if b = strBytes "AT" then .AT
  else if b = strBytes "AX" then .AX
  else if b = strBytes "BS" then .BS
  else if b = strBytes "SA" then .SA
  else .Unknown

/-- `AisReportType` (`src/sentence.rs`, lines 22–41). -/
inductive AisReportType where
  | VDM | VDO | Unknown
deriving DecidableEq, Repr

/-- `From<&[u8]> for AisReportType`: the three report bytes. -/
def reportOf (b : Bytes) : AisReportType :=
  if b = strBytes "VDM" then .VDM
  else if b = strBytes "VDO" then .VDO
  else .Unknown

/-- `AisSentence` (`src/sentence.rs`, lines 188–201).  `message` holds the
variant selected by the message layer when `parse` is called with
`decode = true` (see `AisMsgClass`). -/
structure AisSentence where
  talker_id : TalkerId
  report_type : AisReportType
  num_fragments : Nat
  fragment_number : Nat
  message_id : Option Nat
  channel : Option Nat
  data : Bytes
  fill_bit_count : Nat
  message_type : Nat
  message : Option AisMsgClass
deriving DecidableEq, Repr

/-- `AisSentence::has_more` (`src/sentence.rs`, lines 205–207). -/
def hasMore (s : AisSentence) : Bool :=
  s.fragment_number < s.num_fragments

/-- `AisSentence::is_fragment` (`src/sentence.rs`, lines 210–212). -/
def isFragment (s : AisSentence) : Bool :=
  s.num_fragments ≠ 1

/-- `AisFragments` (`src/sentence.rs`, lines 87–91). -/
inductive AisFragments where
  | complete (s : AisSentence)
  | incomplete (s : AisSentence)
deriving DecidableEq, Repr

/-- The mutable fields of `AisParser` (`src/sentence.rs`, lines 111–116);
`AisParser::new` / `Default` gives `⟨none, 0, []⟩`. -/
structure AisParserState where
  message_id : Option Nat
  fragment_number : Nat
  data : Bytes
deriving DecidableEq, Repr

/-- The fresh parser state (`AisParser::default()`). -/
def freshParser : AisParserState := ⟨none, 0, []⟩

/-- `nom` `tag` for a single byte. -/
def tagByte (c : Nat) (d : Bytes) : Except Error Bytes :=
  match d with
  | b :: rest => if b = c then .ok rest else .error (.nmea "Parser error: tag")
  | [] => .error (.nmea "Parser error: tag")

/-- `nom` `take(n)`. -/
def takeN (n : Nat) (d : Bytes) : Except Error (Bytes × Bytes) :=
  if n ≤ d.length then .ok (d.drop n, d.take n) else .error (.nmea "Parser error: take")

/-- `nom` `take_until(c)`: the bytes before the first occurrence of `c`
(which stays in the remaining input); fails when `c` does not occur. -/
def takeUntil (c : Nat) (d : Bytes) : Except Error (Bytes × Bytes) :=
  let pre := d.takeWhile (· ≠ c)
  if pre.length = d.length then .error (.nmea "Parser error: take_until")
  else .ok (d.drop pre.length, pre)

def isAsciiDigit (b : Nat) : Bool := 48 ≤ b ∧ b ≤ 57

/-- `parse_u8_digit` (`src/sentence.rs`, lines 216–223): `digit1` (one or more
ASCII digits) followed by `u8::from_str`, which fails above 255. -/
def parseU8Digit (d : Bytes) : Except Error (Bytes × Nat) :=
  let digits := d.takeWhile isAsciiDigit
  if digits.isEmpty then .error (.nmea "Parser error: digit1")
  else
    let v := digits.foldl (fun a b => a * 10 + (b - 48)) 0
    if v ≤ 255 then .ok (d.drop digits.length, v)
    else .error (.nmea "Parser error: u8 out of range")

def isHexDigitB (b : Nat) : Bool :=
  (48 ≤ b ∧ b ≤ 57) ∨ (65 ≤ b ∧ b ≤ 70) ∨ (97 ≤ b ∧ b ≤ 102)

def hexDigitVal (b : Nat) : Nat :=
  if b ≤ 57 then b - 48 else if b ≤ 70 then b - 55 else b - 87

/-- `nom::number::complete::hex_u32`: one or more hex digits, capped at the
first 8, folded MSB-first in base 16. -/
def hexU32 (d : Bytes) : Except Error (Bytes × Nat) :=
  let digits := d.takeWhile isHexDigitB
  if digits.isEmpty then .error (.nmea "Parser error: hex digit")
  else
    let parsed := digits.take 8
    .ok (d.drop parsed.length, parsed.foldl (fun a b => a * 16 + hexDigitVal b) 0)

/-- `parse_ais_sentence` (`src/sentence.rs`, lines 226–267): the AIS portion
after the `!`/`$` marker, up to (not including) the `*`.  Commas are byte 44.
`opt(parse_u8_digit)` backtracks, so a missing group id yields `none` without
consuming; `opt(anychar)` on the channel field takes its first byte, if any.
The `message_type` field is read from the first ARMORED payload byte. -/
def parseAisSentence (d : Bytes) : Except Error (Bytes × AisSentence) :=
  match takeN 2 d with
  | .error e => .error e
  | .ok (d, talkerBytes) =>
  match takeN 3 d with
  | .error e => .error e
  | .ok (d, reportBytes) =>
  match tagByte 44 d with
  | .error e => .error e
  | .ok d =>
  match parseU8Digit d with
  | .error e => .error e
  | .ok (d, numFragments) =>
  match tagByte 44 d with
  | .error e => .error e
  | .ok d =>
  match parseU8Digit d with
  | .error e => .error e
  | .ok (d, fragmentNumber) =>
  match tagByte 44 d with
  | .error e => .error e
  | .ok d =>
  let idStep : Bytes × Option Nat :=
    match parseU8Digit d with
    | .ok (d', v) => (d', some v)
    | .error _ => (d, none)
  match tagByte 44 idStep.1 with
  | .error e => .error e
  | .ok d =>
  match takeUntil 44 d with
  | .error e => .error e
  | .ok (d, channelBytes) =>
  match tagByte 44 d with
  | .error e => .error e
  | .ok d =>
  match takeUntil 44 d with
  | .error e => .error e
  | .ok (d, aisData) =>
  match tagByte 44 d with
  | .error e => .error e
  | .ok d =>
  match parseU8Digit d with
  | .error e => .error e
  | .ok (d, fillBitCount) =>
  if fillBitCount < 6 then
    match messageType aisData with
    | .error e => .error e
    | .ok mtype =>
      .ok (d, { talker_id := talkerOf talkerBytes
                report_type := reportOf reportBytes
                num_fragments := numFragments
                fragment_number := fragmentNumber
                message_id := idStep.2
                channel := channelBytes.head?
                data := aisData
                fill_bit_count := fillBitCount
                message_type := mtype
                message := none })
  else .error (.nmea "Parser error: fill bits")

/-- `parse_nmea_sentence` (`src/sentence.rs`, lines 270–277): optional
tag block `\…\`, then `!` or `$`, then a `peek` of everything before the `*`
(the checksum range), the AIS sentence, the `*`, and a hex checksum `≤ 0xff`.
Returns `(remaining, (raw, sentence, checksum))`. -/
def parseNmeaSentence (d : Bytes) : Except Error (Bytes × (Bytes × AisSentence × Nat)) :=
  let afterTag : Bytes :=
    match tagByte 92 d with
    | .error _ => d
    | .ok d1 =>
      match takeUntil 92 d1 with
      | .error _ => d
      | .ok (d2, _) =>
        match tagByte 92 d2 with
        | .error _ => d
        | .ok d3 => d3
  match (match tagByte 33 afterTag with
         | .ok r => Except.ok r
         | .error _ => tagByte 36 afterTag) with
  | .error e => .error e
  | .ok d =>
  match takeUntil 42 d with
  | .error e => .error e
  | .ok (_, raw) =>
  match parseAisSentence d with
  | .error e => .error e
  | .ok (d, s) =>
  match tagByte 42 d with
  | .error e => .error e
  | .ok d =>
  match hexU32 d with
  | .error e => .error e
  | .ok (d, ck) =>
  if ck ≤ 0xff then .ok (d, (raw, s, ck))
  else .error (.nmea "Parser error: checksum range")

/-- XOR-fold of a byte range (the checksum computation in `check_checksum`). -/
def xorFold (l : Bytes) : Nat :=
  l.foldl (fun acc b => acc ^^^ b) 0

/-- `AisParser::check_checksum` (`src/sentence.rs`, lines 175–185). -/
def checkChecksum (sentence : Bytes) (expected : Nat) : Except Error Nat :=
  let received := xorFold sentence
  if expected ≠ received then .error (.checksum expected received)
  else .ok received

/-- `AisParser::verify_and_extend_data` (`src/sentence.rs`, lines 157–172).
The fragment-number check is `u8` arithmetic
(`ais_sentence.fragment_number - self.fragment_number != 1`), modelled with the
release-build wrapping subtraction `(a + 256 - b) % 256` (a debug build panics
when the subtraction underflows; either way the call does not succeed). -/
def verifyAndExtendData (st : AisParserState) (s : AisSentence) :
    Except Error AisParserState :=
  if st.message_id ≠ s.message_id then
    .error (.nmea "Message ID out of sequence")
  else if (s.fragment_number + 256 - st.fragment_number) % 256 ≠ 1 then
    .error (.nmea "Fragment numbers out of sequence")
  else
    .ok { st with fragment_number := s.fragment_number, data := st.data ++ s.data }

/-- `AisParser::parse` (`src/sentence.rs`, lines 130–155), with the parser's
mutable state passed explicitly: frame the line, check the checksum, then run
the fragment state machine; on a completed sentence with `decode = true`,
unarmor the payload and dispatch it to the message layer. -/
def parseAis (st : AisParserState) (line : Bytes) (decode : Bool) :
    Except Error (AisParserState × AisFragments) :=
  match parseNmeaSentence line with
  | .error e => .error e
  | .ok (_, (raw, s, ck)) =>
  match checkChecksum raw ck with
  | .error e => .error e
  | .ok _ =>
  if hasMore s then
    let st1 := if s.fragment_number = 1 then ⟨s.message_id, 0, []⟩ else st
    match verifyAndExtendData st1 s with
    | .error e => .error e
    | .ok st2 => .ok (st2, .incomplete s)
  else
    let step : Except Error (AisParserState × AisSentence) :=
      if isFragment s then
        match verifyAndExtendData st s with
        | .error e => .error e
        | .ok st2 => .ok ({ st2 with data := [] }, { s with data := st2.data })
      else .ok (st, s)
    match step with
    | .error e => .error e
    | .ok (st3, s3) =>
    if decode then
      match unarmor s3.data s3.fill_bit_count with
      | .error e => .error e
      | .ok unarmored =>
      match messagesParse unarmored with
      | .error e => .error e
      | .ok m => .ok (st3, .complete { s3 with message := some m })
    else
      .ok (st3, .complete s3)

/-! ## Concrete inputs used by witnesses (from the crate's own test vectors) -/

/-- `BAD_CHECKSUM` test line of `src/sentence.rs`: declared checksum `0x8D`,
computed checksum `0x7A`. -/
def badChecksumLine : Bytes :=
  strBytes "!AIVDM,1,1,,A,E>kb9I99S@0`8@:9ah;0TahI7@@;V4=v:nv;h00003vP100,0*8D"

/-- The checksum range of `badChecksumLine` (between `!` and `*`, exclusive). -/
def badChecksumRaw : Bytes :=
  strBytes "AIVDM,1,1,,A,E>kb9I99S@0`8@:9ah;0TahI7@@;V4=v:nv;h00003vP100,0"

/-- The framed sentence of `badChecksumLine`. -/
def badChecksumSentence : AisSentence :=
  { talker_id := .AI, report_type := .VDM, num_fragments := 1, fragment_number := 1,
    message_id := none, channel := some 65,
    data := strBytes "E>kb9I99S@0`8@:9ah;0TahI7@@;V4=v:nv;h00003vP100",
    fill_bit_count := 0, message_type := 17, message := none }

/-- `FRAGMENT_1` test line of `src/sentence.rs` (fragment 1 of 2, group 1). -/
def frag1Line : Bytes :=
  strBytes "!AIVDM,2,1,1,B,53`soB8000010KSOW<0P4eDp4l6000000000000U0p<24t@P05H3S833CDP00000,0*78"

/-- The checksum range of `frag1Line`. -/
def frag1Raw : Bytes :=
  strBytes "AIVDM,2,1,1,B,53`soB8000010KSOW<0P4eDp4l6000000000000U0p<24t@P05H3S833CDP00000,0"

/-- The armored payload of `frag1Line`. -/
def frag1Payload : Bytes :=
  strBytes "53`soB8000010KSOW<0P4eDp4l6000000000000U0p<24t@P05H3S833CDP00000"

/-- The framed sentence of `frag1Line`. -/
def frag1Sentence : AisSentence :=
  { talker_id := .AI, report_type := .VDM, num_fragments := 2, fragment_number := 1,
    message_id := some 1, channel := some 66, data := frag1Payload,
    fill_bit_count := 0, message_type := 13, message := none }

/-- The reassembler state after feeding `frag1Line` to a fresh parser. -/
def frag1State : AisParserState := ⟨some 1, 1, frag1Payload⟩

/-- `FRAGMENT_2` test line of `src/sentence.rs` (fragment 2 of 2, group 1). -/
def frag2Line : Bytes := strBytes "!AIVDM,2,2,1,B,0000000,2*26"

/-- The checksum range of `frag2Line`. -/
def frag2Raw : Bytes := strBytes "AIVDM,2,2,1,B,0000000,2"

/-- The armored payload of `frag2Line`. -/
def frag2Payload : Bytes := strBytes "0000000"

/-- The framed sentence of `frag2Line`. -/
def frag2Sentence : AisSentence :=
  { talker_id := .AI, report_type := .VDM, num_fragments := 2, fragment_number := 2,
    message_id := some 1, channel := some 66, data := frag2Payload,
    fill_bit_count := 2, message_type := 12, message := none }

/-- `GOOD_CHECKSUM` test line of `src/sentence.rs`. -/
def goodChecksumLine : Bytes :=
  strBytes "!AIVDM,1,1,,A,E>kb9I99S@0`8@:9ah;0TahI7@@;V4=v:nv;h00003vP100,0*7A"

/-- The framed sentence of `goodChecksumLine` (payload starts with `E` = 69,
so the sentence-level `message_type` is `69 >> 2 = 17`, while the unarmored
payload starts with 6-bit value `69 - 48 = 21`). -/
def goodChecksumSentence : AisSentence := badChecksumSentence

/-- The armored type-23 example payload from the `test_type23` unit test of
`src/messages/group_assignment_command.rs`. -/
def type23Payload : Bytes := strBytes "G02OHAP8aLvg@@b1tF600000;00"

end Ais

namespace Ais

/-! ## Helper lemmas -/

theorem bitsValue_lt (bytes : Bytes) (off n : Nat) : bitsValue bytes off n < 2 ^ n := by
  induction n with
  | zero => simp [bitsValue]
  | succ n ih =>
    have : 2 ^ (n + 1) = 2 ^ n * 2 := by ring
    rw [bitsValue, this]
    split <;> omega

theorem takeBitsE_eq_ok {n : Nat} {inp inp' : BitCursor} {u : Nat}
    (h : takeBitsE n inp = .ok (inp', u)) :
    inp' = (inp.1, inp.2 + n) ∧ u = bitsValue inp.1 inp.2 n ∧ u < 2 ^ n := by
  unfold takeBitsE at h
  split at h
  · cases h
    exact ⟨rfl, rfl, bitsValue_lt _ _ _⟩
  · cases h

theorem ite_testBit_eq (b k : Nat) :
    (if Nat.testBit b k then 1 else 0) = b / 2 ^ k % 2 := by
  rw [Nat.testBit_to_div_mod]
  rcases Nat.mod_two_eq_zero_or_one (b / 2 ^ k) with h | h <;> simp [h]

theorem getD_set_eq (l : List Nat) (i a : Nat) (h : i < l.length) :
    (l.set i a).getD i 0 = a := by
  induction l generalizing i with
  | nil => simp at h
  | cons x xs ih =>
    cases i with
    | zero => rfl
    | succ i => simpa using ih i (by simpa using h)

theorem getD_set_ne (l : List Nat) (i j a : Nat) (h : i ≠ j) :
    (l.set i a).getD j 0 = l.getD j 0 := by
  induction l generalizing i j with
  | nil => simp [List.set]
  | cons x xs ih =>
    cases i with
    | zero =>
      cases j with
      | zero => exact absurd rfl h
      | succ j => rfl
    | succ i =>
      cases j with
      | zero => rfl
      | succ j => simpa using ih i j (fun hh => h (by rw [hh]))

/-! ## C5 — longitude field parser -/

/-- C5 (counterexample): the raw 28-bit value `108000001` is not the sentinel
`108600000`, yet `parse_longitude` returns an error, not the present value
`raw / 600000.0`. -/
theorem parse_longitude_out_of_range_errors :
    parse_longitude 108000001 = .error (.nmea "Invalid longitude") ∧
    (108000001 : Int) ≠ 108600000 ∧ -(2 ^ 27) ≤ (108000001 : Int) ∧ (108000001 : Int) < 2 ^ 27 :=
  ⟨by decide, by decide, by decide, by decide⟩

/-- C5 (amended): for every raw 28-bit two's-complement value, `parse_longitude`
returns the absent value exactly when `raw = 108600000`; it returns the present
value `raw / 600000` exactly when `-108000000 ≤ raw ≤ 108000000`; for every
other raw value it returns the `Invalid longitude` error. -/
theorem parse_longitude_characterization (raw : Int)
    (hlo : -(2 ^ 27) ≤ raw) (hhi : raw < 2 ^ 27) :
    (parse_longitude raw = .ok none ↔ raw = 108600000) ∧
    (-108000000 ≤ raw ∧ raw ≤ 108000000 →
      parse_longitude raw = .ok (some ((raw : ℚ) / 600000))) ∧
    (raw < -108000000 ∨ (108000000 < raw ∧ raw ≠ 108600000) →
      parse_longitude raw = .error (.nmea "Invalid longitude")) := by
  refine ⟨⟨fun h => ?_, fun h => ?_⟩, fun h => ?_, fun h => ?_⟩
  · unfold parse_longitude at h
    split_ifs at h with h1 h2
    · simp at h
    · exact h2
  · subst h
    unfold parse_longitude
    norm_num
  · unfold parse_longitude
    rw [if_pos h]
  · unfold parse_longitude
    rw [if_neg (by omega), if_neg (by omega)]

/-- C5 (witness): at the sentinel raw value the parser reports the absent value. -/
theorem parse_longitude_characterization_witness :
    parse_longitude 108600000 = .ok none :=
  (parse_longitude_characterization 108600000 (by decide) (by decide)).1.mpr rfl

/-! ## C8 — 5-bit hour fields -/

/-- C8 (counterexample): the ETA-hour parser of the type-5 decoder
(`common.rs::parse_hour`) rejects the raw value 25 with `Invalid hour` instead
of decoding it to the present value 25. -/
theorem parse_hour_25_errors :
    parseHourCommon ([200], 0) = .error (.nmea "Invalid hour") ∧
    bitsValue [200] 0 5 = 25 := ⟨rfl, rfl⟩

/-- C8 (amended): for a 5-bit hour field raw value `v`: the ETA-hour parser of
the type-5 decoder (`common.rs::parse_hour`) decodes 24 to the absent value,
`0..=23` to the present raw value, and rejects `25..=31` with `Invalid hour`;
the hour parser used by the type-11 decoder (`parsers.rs::parse_hour`) has no
sentinel handling at all and always returns the present raw value, including 24. -/
theorem parse_hour_characterization (inp inp' : BitCursor) (v : Nat)
    (h : takeBitsE 5 inp = .ok (inp', v)) :
    (parseHourCommon inp = .ok (inp', none) ↔ v = 24) ∧
    (v < 24 → parseHourCommon inp = .ok (inp', some v)) ∧
    (24 < v → parseHourCommon inp = .error (.nmea "Invalid hour")) ∧
    parseHourNoSentinel inp = .ok (inp', v) := by
  refine ⟨⟨fun hh => ?_, fun hh => ?_⟩, fun hh => ?_, fun hh => ?_, h⟩
  · unfold parseHourCommon at hh
    rw [h] at hh
    dsimp only at hh
    split_ifs at hh with h1 h2
    · simp at hh
    · exact h2
  · unfold parseHourCommon
    rw [h]
    dsimp only
    rw [if_neg (by omega), if_pos hh]
  · unfold parseHourCommon
    rw [h]
    dsimp only
    rw [if_pos (by omega)]
  · unfold parseHourCommon
    rw [h]
    dsimp only
    rw [if_neg (by omega), if_neg (by omega)]

/-- C8 (witness): the byte `200 = 0b11001000` carries the 5-bit value 24;
the type-5 ETA-hour parser maps it to the absent value. -/
theorem parse_hour_characterization_witness :
    parseHourCommon ([192], 0) = .ok (([192], 5), none) :=
  (parse_hour_characterization ([192], 0) (([192], 5)) 24 rfl).1.mpr rfl

/-! ## C9 — type-23 dispatch -/

/-- C9: the unarmored bitstream of the crate's own `test_type23` payload carries
message type 23, but `messages::parse` maps 23 (like 22, 25 and 26) to the
catch-all `Unimplemented type` arm: the dispatch table of `mod.rs` has no arm
for 23 even though `group_assignment_command.rs` implements the type-23 decoder. -/
theorem dispatch_type23_unimplemented :
    (unarmor type23Payload 0).bind messageType = .ok 23 ∧
    (unarmor type23Payload 0).bind messagesParse = .error (.nmea "Unimplemented type") ∧
    dispatchType 22 = .error (.nmea "Unimplemented type") ∧
    dispatchType 25 = .error (.nmea "Unimplemented type") ∧
    dispatchType 26 = .error (.nmea "Unimplemented type") :=
  ⟨rfl, rfl, rfl, rfl, rfl⟩

/-! ## C7 — 6-bit text trimming -/

/-- C7 (counterexample): the 24-bit field with 6-bit values `[1, 0, 32, 0]`
(characters `A@ @`) decodes to `A@` (`[65, 64]`): the trailing `@` survives
because `trim_end_matches('@')` runs before `trim_end()`. -/
theorem parse_6bit_ascii_trailing_at :
    parse6bitAscii (([4, 8, 0] : Bytes), 0) 24 = .ok ((([4, 8, 0] : Bytes), 24), [65, 64]) ∧
    ([65, 64] : List Nat).getLast? = some 64 := ⟨rfl, rfl⟩

/-! ## C6 — signed bit extraction -/

/-- C6 (counterexample): at width 32, the bit pattern `0x80000000` (unsigned
value `2^31`, most significant bit set) is decoded to `-1`, not to the
two's-complement value `2^31 - 2^32 = -2^31`: the mask `!0i32 << 32` wraps to
`!0` (a debug build panics on that shift). -/
theorem signed_i32_width32_not_sign_extension :
    signed_i32 (([128, 0, 0, 0] : Bytes), 0) 32 =
      .ok ((([128, 0, 0, 0] : Bytes), 32), -1) ∧
    bitsValue [128, 0, 0, 0] 0 32 = 2 ^ 31 ∧
    ((2 ^ 31 : Int) - 2 ^ 32 ≠ -1) :=
  ⟨by decide, by decide, by decide⟩

/-- C6 (amended): for every width `w` in `1..=31` and every raw bit pattern,
`signed_i32` succeeds and returns the unsigned value of the `w` bits minus
`2^w` when the most significant of the `w` bits is 1, and the unsigned value
itself otherwise.  At `w = 32` the result degenerates to `-1`/`0` (release) or
a panic (debug), as the counterexample shows. -/
theorem signed_i32_sign_extension (len : Nat) (h1 : 1 ≤ len) (h2 : len ≤ 31)
    (inp inp' : BitCursor) (u : Nat)
    (h : takeBitsE len inp = .ok (inp', u)) :
    signed_i32 inp len =
      .ok (inp', (u : Int) - (if 2 ^ (len - 1) ≤ u then 2 ^ len else 0)) := by
  obtain ⟨hinp, hval, hu⟩ := takeBitsE_eq_ok h
  have hlen32 : (2 : Nat) ^ len ≤ 2 ^ 31 := Nat.pow_le_pow_right (by norm_num) h2
  have hu31 : u < 2 ^ 31 := lt_of_lt_of_le hu hlen32
  have hu32 : u < 2 ^ 32 := lt_trans hu31 (by norm_num)
  unfold signed_i32
  rw [if_neg (by omega), h]
  dsimp only
  have hnum : u % 2 ^ 32 = u := Nat.mod_eq_of_lt hu32
  have hse : (2 : Nat) ^ (32 - len) * 2 ^ len = 2 ^ 32 := by
    rw [← Nat.pow_add]
    congr 1
    omega
  have hl32 : len % 32 = len := by omega
  have hs32 : (32 - len) % 32 = 32 - len := by omega
  have hmulbound : u * 2 ^ (32 - len) < 2 ^ 32 := by
    calc u * 2 ^ (32 - len) < 2 ^ len * 2 ^ (32 - len) :=
          (Nat.mul_lt_mul_right (Nat.pos_pow_of_pos _ (by norm_num))).mpr hu
    _ = 2 ^ 32 := by rw [mul_comm]; exact hse
  have hmask : ((2 ^ 32 - 1) <<< (len % 32)) % 2 ^ 32 = 2 ^ 32 - 2 ^ len := by
    rw [hl32, Nat.shiftLeft_eq]
    have e1 : (2 ^ 32 - 1) * 2 ^ len = (2 ^ 32 - 2 ^ len) + (2 ^ len - 1) * 2 ^ 32 := by
      rw [Nat.sub_mul, Nat.sub_mul, one_mul, one_mul, mul_comm]
      omega
    rw [e1, Nat.add_mul_mod_self_right, Nat.mod_eq_of_lt (by omega)]
  have hshift : ((u % 2 ^ 32) <<< ((32 - len) % 32)) % 2 ^ 32 = u * 2 ^ (32 - len) := by
    rw [hnum, hs32, Nat.shiftLeft_eq, Nat.mod_eq_of_lt hmulbound]
  have hcrit : 2 ^ 31 ≤ u * 2 ^ (32 - len) ↔ 2 ^ (len - 1) ≤ u := by
    have e31 : (2 : Nat) ^ 31 = 2 ^ (len - 1) * 2 ^ (32 - len) := by
      rw [← Nat.pow_add]
      congr 1
      omega
    rw [e31]
    constructor
    · intro hc
      exact Nat.le_of_mul_le_mul_right (by rwa [mul_comm (2 ^ (len - 1)), mul_comm u] at hc)
        (Nat.pos_pow_of_pos _ (by norm_num))
    · intro hc
      exact Nat.mul_le_mul_right _ hc
  rw [hmask, hshift, hnum]
  by_cases hmsb : 2 ^ (len - 1) ≤ u
  · rw [if_pos ((hcrit.mpr hmsb)), if_pos hmsb]
    have hor : u ||| (2 ^ 32 - 2 ^ len) = (2 ^ 32 - 2 ^ len) + u := by
      have e2 : (2 : Nat) ^ 32 - 2 ^ len = 2 ^ len * (2 ^ (32 - len) - 1) := by
        rw [Nat.mul_sub_one]
        rw [mul_comm, hse]
      rw [e2, Nat.or_comm, ← Nat.mul_add_lt_is_or hu]
    rw [hor]
    unfold toInt32
    rw [if_neg (show ¬(2 ^ 32 - 2 ^ len + u < 2 ^ 31) by omega)]
    have hfin : ((2 ^ 32 - 2 ^ len + u : Nat) : Int) - 2 ^ 32 = (u : Int) - 2 ^ len := by
      have hcastpow : ((2 ^ len : Nat) : Int) = 2 ^ len := by push_cast; rfl
      omega
    rw [hfin]
  · rw [if_neg (fun hc => hmsb (hcrit.mp hc)), if_neg hmsb]
    have hnot : notPat32 (2 ^ 32 - 2 ^ len) = 2 ^ len - 1 := by
      have e3 : (2 : Nat) ^ 32 - 2 ^ len = (2 ^ (32 - len) - 1) <<< len := by
        rw [Nat.shiftLeft_eq, Nat.sub_mul, one_mul, hse]
      rw [notPat32, e3]
      apply Nat.eq_of_testBit_eq
      intro i
      simp only [Nat.testBit_xor, Nat.testBit_shiftLeft, Nat.testBit_two_pow_sub_one]
      by_cases hi1 : i < len
      · simp [hi1, Nat.not_le.mpr hi1, show i < 32 by omega]
      · have hle : len ≤ i := Nat.not_lt.mp hi1
        by_cases hi2 : i < 32
        · simp [hi1, hle, hi2, Nat.lt_sub_iff_add_lt, Nat.sub_add_cancel hle,
            show i - len < 32 - len from by omega]
        · simp [hi1, hle, hi2, show ¬(i - len < 32 - len) from by omega]
    rw [hnot]
    have hand : (2 ^ len - 1) &&& u = u := by
      rw [Nat.and_comm]
      exact Nat.and_pow_two_sub_one_of_lt_two_pow hu
    rw [hand]
    unfold toInt32
    rw [if_pos hu31]
    simp

/-- C6 (witness): width 28 on the all-ones pattern: the 28-bit value `2^28 - 1`
has its most significant bit set and decodes to `(2^28 - 1) - 2^28 = -1`. -/
theorem signed_i32_sign_extension_witness :
    signed_i32 (([255, 255, 255, 255] : Bytes), 0) 28 =
      .ok ((([255, 255, 255, 255] : Bytes), 28), -1) := by
  have h := signed_i32_sign_extension 28 (by norm_num) (by norm_num)
    (([255, 255, 255, 255] : Bytes), 0) (([255, 255, 255, 255] : Bytes), 28)
    (2 ^ 28 - 1) (by decide)
  rw [h, if_pos (by norm_num)]
  norm_num

theorem head_dropWhile_not (p : Nat → Bool) (l : List Nat) (a : Nat)
    (h : (l.dropWhile p).head? = some a) : p a = false := by
  induction l with
  | nil => simp at h
  | cons x xs ih =>
    rw [List.dropWhile_cons] at h
    split at h
    · exact ih h
    next hpx =>
      simp only [List.head?_cons, Option.some.injEq] at h
      subst h
      simpa using hpx

theorem dropTrailing_getLast_not (c : Nat) (l : List Nat) (a : Nat)
    (h : (dropTrailing c l).getLast? = some a) : a ≠ c := by
  unfold dropTrailing at h
  rw [List.getLast?_reverse] at h
  have := head_dropWhile_not (· = c) l.reverse a h
  simpa using this

theorem dropTrailing_head (c : Nat) (l : List Nat) :
    dropTrailing c l = [] ∨ (dropTrailing c l).head? = l.head? := by
  have hsplit : l = dropTrailing c l ++ (l.reverse.takeWhile (· = c)).reverse := by
    unfold dropTrailing
    rw [← List.reverse_append, List.takeWhile_append_dropWhile, List.reverse_reverse]
  cases hd : dropTrailing c l with
  | nil => exact Or.inl rfl
  | cons x xs =>
    right
    conv_rhs => rw [hsplit]
    rw [hd]
    simp

/-! ## C7 — no space at either end of decoded text -/

/-- C7 (amended): every successfully decoded 6-bit text field has no leading
space and no trailing space; trailing `@` characters are stripped before the
trailing spaces, so (as the counterexample shows) a trailing `@` can survive. -/
theorem parse_6bit_ascii_no_space_ends (inp : BitCursor) (size : Nat)
    (inp' : BitCursor) (s : List Nat)
    (h : parse6bitAscii inp size = .ok (inp', s)) :
    s.head? ≠ some 32 ∧ s.getLast? ≠ some 32 := by
  unfold parse6bitAscii at h
  split at h
  · cases h
  next inp2 chars heq =>
    cases h
    constructor
    · intro hh
      rcases dropTrailing_head 32 (dropTrailing 64 (chars.dropWhile (· = 32))) with h1 | h1
      · rw [h1] at hh
        simp at hh
      · rw [h1] at hh
        rcases dropTrailing_head 64 (chars.dropWhile (· = 32)) with h2 | h2
        · rw [h2] at hh
          simp at hh
        · rw [h2] at hh
          have := head_dropWhile_not (· = 32) chars 32 hh
          simp at this
    · intro hh
      exact dropTrailing_getLast_not 32 _ 32 hh rfl

/-- C7 (witness): the decoded field `[65, 64]` (`A@`) from the counterexample
input neither starts nor ends with a space. -/
theorem parse_6bit_ascii_no_space_ends_witness :
    ([65, 64] : List Nat).head? ≠ some 32 ∧ ([65, 64] : List Nat).getLast? ≠ some 32 :=
  parse_6bit_ascii_no_space_ends (([4, 8, 0] : Bytes), 0) 24 (([4, 8, 0] : Bytes), 24)
    [65, 64] rfl

/-! ## C2 — checksum contract of `AisParser::parse` -/

/-- C2: for every line the framer accepts, `parse` (for any parser state and
either decode mode) fails with `Checksum { expected := declared, found := computed }`
whenever the XOR of the bytes between the leading `!`/`$` and the `*` differs
from the declared checksum, and can return a sentence only when the two agree. -/
theorem parse_checksum_contract (st : AisParserState) (line : Bytes) (decode : Bool)
    (rest raw : Bytes) (s : AisSentence) (ck : Nat)
    (h : parseNmeaSentence line = .ok (rest, (raw, s, ck))) :
    (xorFold raw ≠ ck → parseAis st line decode = .error (.checksum ck (xorFold raw))) ∧
    (∀ r, parseAis st line decode = .ok r → xorFold raw = ck) := by
  unfold parseAis
  rw [h]
  dsimp only
  unfold checkChecksum
  by_cases hck : ck = xorFold raw
  · rw [if_neg (by simpa using hck)]
    refine ⟨fun hne => absurd hck.symm hne, fun r hr => hck.symm⟩
  · rw [if_pos (by simpa using hck)]
    dsimp only
    exact ⟨fun _ => rfl, fun r hr => by cases hr⟩

/-- C2 (witness): the `BAD_CHECKSUM` test line declares `0x8D = 141` but the
bytes XOR to `0x7A = 122`; `parse` reports exactly that pair. -/
theorem parse_checksum_contract_witness :
    parseAis freshParser badChecksumLine false = .error (.checksum 141 122) :=
  (parse_checksum_contract freshParser badChecksumLine false [] badChecksumRaw
    badChecksumSentence 141 rfl).1 (by decide)

/-! ## C3 — out-of-order fragments -/

/-- C3 (counterexample): feeding `FRAGMENT_1` (a 1-of-2 fragment) twice to a
fresh parser: while the group of the first copy is still accumulating, the
second copy — a new fragment-index-1 — is accepted with `Incomplete` again
(the accumulator is silently reset), not rejected with a fragment-sequence
error as the claim requires. -/
theorem parse_fragment_restart_not_error :
    parseAis freshParser frag1Line false = .ok (frag1State, .incomplete frag1Sentence) ∧
    parseAis frag1State frag1Line false = .ok (frag1State, .incomplete frag1Sentence) ∧
    frag1Sentence.fragment_number = 1 ∧ hasMore frag1Sentence = true :=
  ⟨rfl, rfl, rfl, rfl⟩

/-- C3 (amended): a fragment of a multi-part message whose index is not 1 and
that disagrees with the accumulating state — its group id differs, or its index
is not `last_seen + 1` (in the `u8` arithmetic of the source) — makes `parse`
return a hard error (`Message ID out of sequence` or `Fragment numbers out of
sequence`).  A fragment with index 1, however, silently resets the accumulator
(see the counterexample), which the original claim ruled out. -/
theorem parse_fragment_mismatch_errors (st : AisParserState) (line : Bytes) (decode : Bool)
    (rest raw : Bytes) (s : AisSentence) (ck : Nat)
    (hf : parseNmeaSentence line = .ok (rest, (raw, s, ck)))
    (hck : xorFold raw = ck)
    (hnot1 : s.fragment_number ≠ 1)
    (hfrag : hasMore s = true ∨ isFragment s = true)
    (hmism : st.message_id ≠ s.message_id ∨
      (s.fragment_number + 256 - st.fragment_number) % 256 ≠ 1) :
    parseAis st line decode = .error (.nmea "Message ID out of sequence") ∨
    parseAis st line decode = .error (.nmea "Fragment numbers out of sequence") := by
  unfold parseAis
  rw [hf]
  dsimp only
  unfold checkChecksum
  rw [if_neg (by simp [hck])]
  dsimp only
  by_cases hm : hasMore s = true
  · rw [if_pos hm, if_neg hnot1]
    unfold verifyAndExtendData
    rcases hmism with hmid | hsucc
    · rw [if_pos hmid]
      exact Or.inl rfl
    · by_cases hmid : st.message_id ≠ s.message_id
      · rw [if_pos hmid]
        exact Or.inl rfl
      · rw [if_neg hmid, if_pos hsucc]
        exact Or.inr rfl
  · have hif : isFragment s = true := hfrag.resolve_left hm
    rw [if_neg hm, if_pos hif]
    unfold verifyAndExtendData
    rcases hmism with hmid | hsucc
    · rw [if_pos hmid]
      exact Or.inl rfl
    · by_cases hmid : st.message_id ≠ s.message_id
      · rw [if_pos hmid]
        exact Or.inl rfl
      · rw [if_neg hmid, if_pos hsucc]
        exact Or.inr rfl

/-- C3 (witness): a parser accumulating group 1 receives the 2-of-2 fragment of
group 1 while its state expects a different group id (5): `parse` errors. -/
theorem parse_fragment_mismatch_errors_witness :
    parseAis ⟨some 5, 1, []⟩ frag2Line false = .error (.nmea "Message ID out of sequence") ∨
    parseAis ⟨some 5, 1, []⟩ frag2Line false = .error (.nmea "Fragment numbers out of sequence") :=
  parse_fragment_mismatch_errors ⟨some 5, 1, []⟩ frag2Line false [] frag2Raw
    frag2Sentence 38 rfl (by decide) (by decide) (Or.inr (by decide)) (Or.inl (by decide))

/-! ## C4 — two-fragment reassembly -/

/-- C4: for every pair of framed, checksum-valid sentences that are fragments
1-of-2 and 2-of-2 of the same message group, a fresh parser returns
`Incomplete` for the first and `Complete` for the second, and the completed
sentence's armored payload is the concatenation of the two fragment payloads
(the message layer not being invoked, `decode = false`). -/
theorem parse_two_fragment_reassembly (l1 l2 : Bytes)
    (r1 r2 raw1 raw2 : Bytes) (s1 s2 : AisSentence) (ck1 ck2 : Nat)
    (h1 : parseNmeaSentence l1 = .ok (r1, (raw1, s1, ck1))) (hx1 : xorFold raw1 = ck1)
    (h2 : parseNmeaSentence l2 = .ok (r2, (raw2, s2, ck2))) (hx2 : xorFold raw2 = ck2)
    (hn1 : s1.num_fragments = 2) (hf1 : s1.fragment_number = 1)
    (hn2 : s2.num_fragments = 2) (hf2 : s2.fragment_number = 2)
    (hmid : s2.message_id = s1.message_id) :
    parseAis freshParser l1 false = .ok (⟨s1.message_id, 1, s1.data⟩, .incomplete s1) ∧
    parseAis ⟨s1.message_id, 1, s1.data⟩ l2 false =
      .ok (⟨s1.message_id, 2, []⟩, .complete { s2 with data := s1.data ++ s2.data }) := by
  constructor
  · unfold parseAis
    rw [h1]
    dsimp only
    unfold checkChecksum
    rw [if_neg (by simp [hx1])]
    dsimp only
    rw [if_pos (show hasMore s1 = true by unfold hasMore; rw [hf1, hn1]; decide),
      if_pos hf1]
    unfold verifyAndExtendData
    rw [if_neg (by simp), if_neg (by simp [hf1])]
    dsimp only
    rw [hf1]
    simp
  · unfold parseAis
    rw [h2]
    dsimp only
    unfold checkChecksum
    rw [if_neg (by simp [hx2])]
    dsimp only
    rw [if_neg (show ¬hasMore s2 = true by unfold hasMore; rw [hf2, hn2]; decide),
      if_pos (show isFragment s2 = true by unfold isFragment; rw [hn2]; decide)]
    unfold verifyAndExtendData
    rw [if_neg (by simp [hmid]), if_neg (by simp [hf2])]
    dsimp only
    rw [hf2]
    rfl

/-- C4 (witness): the crate's own `FRAGMENT_1`/`FRAGMENT_2` pair reassembles
into one Complete sentence carrying the concatenated armored payload. -/
theorem parse_two_fragment_reassembly_witness :
    parseAis freshParser frag1Line false = .ok (frag1State, .incomplete frag1Sentence) ∧
    parseAis frag1State frag2Line false =
      .ok (⟨some 1, 2, []⟩, .complete { frag2Sentence with data := frag1Payload ++ frag2Payload }) :=
  parse_two_fragment_reassembly frag1Line frag2Line [] [] frag1Raw frag2Raw
    frag1Sentence frag2Sentence 120 38 rfl (by decide) rfl (by decide)
    rfl rfl rfl rfl rfl

theorem messageType_ok_ne_nil (d : Bytes) (t : Nat) (h : messageType d = .ok t) :
    d ≠ [] := by
  intro he
  subst he
  simp [messageType, takeBitsE] at h

theorem parseAisSentence_message_type (d rest : Bytes) (s : AisSentence)
    (h : parseAisSentence d = .ok (rest, s)) :
    messageType s.data = .ok s.message_type ∧ s.data ≠ [] := by
  unfold parseAisSentence at h
  iterate 20
    all_goals try dsimp only at h
    all_goals try split at h
  all_goals try cases h
  all_goals exact ⟨by assumption, messageType_ok_ne_nil _ _ (by assumption)⟩

theorem messageType_head (d : Bytes) (t : Nat) (h : messageType d = .ok t) :
    t = bitsValue d 0 6 ∧ d ≠ [] := by
  unfold messageType at h
  split at h
  next inp2 v heq =>
    cases h
    obtain ⟨_, hv, _⟩ := takeBitsE_eq_ok heq
    refine ⟨hv, ?_⟩
    intro he
    subst he
    unfold takeBitsE at heq
    simp at heq
  next e heq => cases h

theorem bitsValue_first_byte (b : Nat) (rest : Bytes) :
    bitsValue (b :: rest) 0 6 = b >>> 2 % 64 := by
  have e : ∀ k : Nat, k < 8 →
      (if streamBit (b :: rest) k then 1 else 0) = b / 2 ^ (7 - k) % 2 := by
    intro k hk
    unfold streamBit
    have h1 : k / 8 = 0 := by omega
    have h2 : k % 8 = k := by omega
    rw [h1, h2, List.getD_cons_zero, ite_testBit_eq]
  have u0 : bitsValue (b :: rest) 0 0 = 0 := rfl
  have u1 : bitsValue (b :: rest) 0 1 =
      bitsValue (b :: rest) 0 0 * 2 + (if streamBit (b :: rest) 0 then 1 else 0) := rfl
  have u2 : bitsValue (b :: rest) 0 2 =
      bitsValue (b :: rest) 0 1 * 2 + (if streamBit (b :: rest) 1 then 1 else 0) := rfl
  have u3 : bitsValue (b :: rest) 0 3 =
      bitsValue (b :: rest) 0 2 * 2 + (if streamBit (b :: rest) 2 then 1 else 0) := rfl
  have u4 : bitsValue (b :: rest) 0 4 =
      bitsValue (b :: rest) 0 3 * 2 + (if streamBit (b :: rest) 3 then 1 else 0) := rfl
  have u5 : bitsValue (b :: rest) 0 5 =
      bitsValue (b :: rest) 0 4 * 2 + (if streamBit (b :: rest) 4 then 1 else 0) := rfl
  have u6 : bitsValue (b :: rest) 0 6 =
      bitsValue (b :: rest) 0 5 * 2 + (if streamBit (b :: rest) 5 then 1 else 0) := rfl
  rw [u6, u5, u4, u3, u2, u1, u0, e 5 (by omega), e 4 (by omega), e 3 (by omega),
    e 2 (by omega), e 1 (by omega), e 0 (by omega), Nat.shiftRight_eq_div_pow]
  omega

/-! ## C10 — the sentence-level `message_type` is read from the armored byte -/

/-- C10: for every successfully framed sentence, the armored payload is
non-empty and the sentence's `message_type` field is the top six bits of the
first RAW armored byte (`b >> 2` for a byte value); it is not the unarmored
6-bit value.  In particular a payload starting with `E` (byte 69) frames with
sentence `message_type` `69 >> 2 = 17`, while the unarmored bitstream of that
payload carries message type `69 - 48 = 21` (an Aid-to-Navigation record). -/
theorem sentence_message_type_armored (line rest raw : Bytes) (s : AisSentence) (ck : Nat)
    (h : parseNmeaSentence line = .ok (rest, (raw, s, ck))) :
    s.data ≠ [] ∧
    s.message_type = (s.data.headD 0) >>> 2 % 64 ∧
    (s.data.headD 0 < 256 → s.message_type = (s.data.headD 0) >>> 2) ∧
    ((unarmor (strBytes "E") 0).bind messageType = .ok 21 ∧
      messageType (strBytes "E") = .ok 17) := by
  have hps : ∃ d1 rest1, parseAisSentence d1 = .ok (rest1, s) := by
    unfold parseNmeaSentence at h
    iterate 20
      all_goals try dsimp only at h
      all_goals try split at h
    all_goals try cases h
    all_goals exact ⟨_, _, by assumption⟩
  obtain ⟨d1, rest1, hps⟩ := hps
  obtain ⟨hmt, hne⟩ := parseAisSentence_message_type d1 rest1 s hps
  obtain ⟨hval, -⟩ := messageType_head s.data s.message_type hmt
  obtain ⟨hb, tl, hcons⟩ : ∃ hb tl, s.data = hb :: tl := by
    cases hd : s.data with
    | nil => exact absurd hd hne
    | cons x xs => exact ⟨x, xs, rfl⟩
  have hhead : s.data.headD 0 = hb := by rw [hcons]; rfl
  have hmain : s.message_type = (s.data.headD 0) >>> 2 % 64 := by
    rw [hhead, hval, hcons, bitsValue_first_byte]
  refine ⟨hne, hmain, fun hlt => ?_, rfl, rfl⟩
  rw [hmain, Nat.shiftRight_eq_div_pow]
  omega

/-- C10 (witness): the `GOOD_CHECKSUM` sentence's `message_type` field is the
top six bits of its first armored payload byte (`E` = 69, so 17). -/
theorem sentence_message_type_armored_witness :
    goodChecksumSentence.message_type = goodChecksumSentence.data.headD 0 >>> 2 :=
  (sentence_message_type_armored goodChecksumLine [] badChecksumRaw
    goodChecksumSentence 122 rfl).2.2.1 (by decide)

/-! ## C1 — unarmor: output length and cleared fill bits -/

theorem testBit_mask_low (s k : Nat) (hk : k < s) :
    Nat.testBit ((255 <<< s) % 256) k = false := by
  have h256 : (256 : Nat) = 2 ^ 8 := rfl
  rw [h256, Nat.testBit_mod_two_pow, Nat.testBit_shiftLeft]
  simp [show ¬(s ≤ k) from by omega]

theorem packLoop_ok (ds : Bytes) (off : Nat) (buf : Bytes)
    (halpha : ∀ b ∈ ds, (48 ≤ b ∧ b ≤ 87) ∨ (96 ≤ b ∧ b ≤ 119)) :
    ∃ out, packLoop ds off buf = .ok out ∧ out.length = buf.length := by
  induction ds generalizing off buf with
  | nil => exact ⟨buf, rfl, rfl⟩
  | cons b rest ih =>
    have hb := halpha b (List.mem_cons_self _ _)
    have hv : ∃ v, armorByteValue b = .ok v := by
      unfold armorByteValue
      rcases hb with h | h
      · exact ⟨b - 48, by rw [if_pos h]⟩
      · refine ⟨b - 56, ?_⟩
        rw [if_neg (by omega), if_pos h]
    obtain ⟨v, hv⟩ := hv
    unfold packLoop
    rw [hv]
    dsimp only
    obtain ⟨out, h1, h2⟩ := ih (off + 6)
      (if off % 8 > 2 then
        orInto (orInto buf (off / 8) (v <<< 2 >>> (off % 8))) (off / 8 + 1)
          ((v <<< 2 <<< (8 - off % 8)) % 256)
      else orInto buf (off / 8) (v <<< 2 >>> (off % 8)))
      (fun x hx => halpha x (List.mem_cons_of_mem _ hx))
    refine ⟨out, h1, ?_⟩
    rw [h2]
    split <;> simp [orInto]

/-- C1 (counterexample): with an empty armored payload and one fill bit the
claim demands a 0-byte buffer, but `unarmor` evaluates `output[byte_count - 1]`
with `byte_count = 0` — a panic in the Rust source, modelled as the
`panicked` error. -/
theorem unarmor_empty_fill_panics :
    unarmor [] 1 = .error (.nmea "panicked: index out of range") ∧
    (6 * ([] : Bytes).length + 7) / 8 = 0 := ⟨rfl, rfl⟩

/-- C1 (amended): for every NON-EMPTY armored payload of `N` bytes within the
armor alphabet and every fill-bit count `f ≤ 5`, `unarmor` returns a buffer of
exactly `⌈6N/8⌉` bytes in which the last `f` of the `6N` significant bits are
zero (the masking reaches the second-to-last byte exactly when the final 6-bit
group straddles the byte boundary and `f` exceeds the significant bits of the
last byte).  For the empty payload with `f ≥ 1` the code panics (see the
counterexample). -/
theorem unarmor_length_and_fill_zero (data : Bytes) (fillBits : Nat)
    (hne : data ≠ [])
    (halpha : ∀ b ∈ data, (48 ≤ b ∧ b ≤ 87) ∨ (96 ≤ b ∧ b ≤ 119))
    (hfill : fillBits ≤ 5) :
    ∃ out, unarmor data fillBits = .ok out ∧
      out.length = (6 * data.length + 7) / 8 ∧
      (∀ j, 6 * data.length - fillBits ≤ j → j < 6 * data.length →
        streamBit out j = false) := by
  have hN : 1 ≤ data.length := by
    cases data with
    | nil => exact absurd rfl hne
    | cons _ _ => simp
  unfold unarmor
  dsimp only
  obtain ⟨packed, hpack, hplen⟩ := packLoop_ok data 0
    (List.replicate (data.length * 6 / 8 + (if data.length * 6 % 8 ≠ 0 then 1 else 0)) 0) halpha
  rw [hpack]
  dsimp only
  rw [List.length_replicate] at hplen
  have hBval : data.length * 6 / 8 + (if data.length * 6 % 8 ≠ 0 then 1 else 0) =
      (6 * data.length + 7) / 8 := by
    by_cases h8 : data.length * 6 % 8 = 0 <;> simp [h8] <;> omega
  by_cases hf0 : fillBits = 0
  · subst hf0
    rw [if_neg (by simp)]
    refine ⟨packed, rfl, by omega, fun j hj1 hj2 => by omega⟩
  · rw [if_pos hf0, if_neg (by omega)]
    set B := data.length * 6 / 8 + (if data.length * 6 % 8 ≠ 0 then 1 else 0) with hBdef
    set fbits := if data.length * 6 % 8 = 0 then 8 else data.length * 6 % 8 with hbifdef
    have hbif1 : 1 ≤ fbits ∧ fbits ≤ 8 := by
      rw [hbifdef]
      split <;> omega
    have hfact : 8 * (B - 1) + fbits = 6 * data.length := by
      rw [hBdef, hbifdef]
      by_cases h8 : data.length * 6 % 8 = 0 <;> simp [h8] <;> omega
    have hB1 : 1 ≤ B := by omega
    set mask1 := if 8 - fbits + min fillBits fbits ≤ 7 then
        (255 <<< (8 - fbits + min fillBits fbits)) % 256 else 0 with hmask1def
    have hmask1bit : ∀ k, k < 8 - fbits + min fillBits fbits → Nat.testBit mask1 k = false := by
      intro k hk
      rw [hmask1def]
      split
      · exact testBit_mask_low _ _ hk
      · simp
    set out1 := packed.set (B - 1) (packed.getD (B - 1) 0 &&& mask1) with hout1def
    have hlen1 : out1.length = B := by rw [hout1def, List.length_set, hplen]
    set out2 := if fbits < fillBits then
        out1.set (B - 1 - 1) (out1.getD (B - 1 - 1) 0 &&& ((255 <<< (fillBits - fbits)) % 256))
      else out1 with hout2def
    have hlen2 : out2.length = B := by
      rw [hout2def]
      split <;> simp [List.length_set, hlen1]
    refine ⟨out2, rfl, by omega, ?_⟩
    intro j hj1 hj2
    unfold streamBit
    by_cases hcase : 8 * (B - 1) ≤ j
    · have hjdiv : j / 8 = B - 1 := by omega
      have hget : out2.getD (B - 1) 0 = packed.getD (B - 1) 0 &&& mask1 := by
        rw [hout2def]
        split
        next hspill =>
          have hB2 : 2 ≤ B := by omega
          rw [getD_set_ne _ _ _ _ (by omega), hout1def]
          exact getD_set_eq _ _ _ (by omega)
        next hspill =>
          rw [hout1def]
          exact getD_set_eq _ _ _ (by omega)
      rw [hjdiv, hget, Nat.testBit_and, hmask1bit (7 - j % 8) (by omega)]
      simp
    · have hspill : fbits < fillBits := by omega
      have hB2 : 2 ≤ B := by omega
      have hjdiv : j / 8 = B - 1 - 1 := by omega
      have hget : out2.getD (B - 1 - 1) 0 =
          out1.getD (B - 1 - 1) 0 &&& ((255 <<< (fillBits - fbits)) % 256) := by
        rw [hout2def, if_pos hspill]
        exact getD_set_eq _ _ _ (by omega)
      rw [hjdiv, hget, Nat.testBit_and, testBit_mask_low _ _ (show 7 - j % 8 < fillBits - fbits by omega)]
      simp

/-- C1 (witness): three armored bytes (`9qW`) with three fill bits: the
18-bit stream's last three significant bits (positions 15, 16, 17) are zero. -/
theorem unarmor_length_and_fill_zero_witness :
    streamBit [39, 152, 0] 15 = false ∧ streamBit [39, 152, 0] 16 = false ∧
    streamBit [39, 152, 0] 17 = false := by
  obtain ⟨out, h1, h2, h3⟩ := unarmor_length_and_fill_zero (strBytes "9qW") 3
    (by decide) (by decide) (by decide)
  have he : out = [39, 152, 0] := by
    have hc : unarmor (strBytes "9qW") 3 = .ok [39, 152, 0] := rfl
    rw [hc] at h1
    exact (Except.ok.injEq _ _).mp h1.symm
  rw [← he]
  exact ⟨h3 15 (by decide) (by decide), h3 16 (by decide) (by decide),
    h3 17 (by decide) (by decide)⟩

end Ais

namespace Ais

/-! ## Validation: the crate's own unit tests, replayed against the embedding

These theorems reproduce, byte for byte, the expectations of the unit tests in
`src/messages/mod.rs` (`unarmor_*`) and `src/sentence.rs` (`parse_*`), checking
that the embedding computes exactly what the source's tests assert. -/

/-- `unarmor_single_byte`, `unarmor_single_byte_fill`,
`unarmor_multi_bytes_unaligned`, `unarmor_multi_bytes_aligned`,
`unarmor_multi_bytes_aligned_fill`, `unarmor_multi_bytes_unaligned_fill`
(`src/messages/mod.rs`). -/
theorem sourceTests_unarmor :
    unarmor (strBytes "9") 0 = .ok [0x24] ∧
    unarmor (strBytes "9") 4 = .ok [0] ∧
    unarmor (strBytes "9q") 0 = .ok [0x27, 0x90] ∧
    unarmor (strBytes "9qKr") 0 = .ok [0x27, 0x96, 0xfa] ∧
    unarmor (strBytes "9qWr") 4 = .ok [0x27, 0x99, 0xf0] ∧
    unarmor (strBytes "9qW") 3 = .ok [0x27, 0x98, 0x00] :=
  ⟨rfl, rfl, rfl, rfl, rfl, rfl⟩

/-- `unarmor_multi_bytes_long` (`src/messages/mod.rs`): a 14-byte armored
payload with 4 fill bits. -/
theorem sourceTest_unarmor_long :
    unarmor (strBytes "E>kb9O9aS@7PUh") 4 =
      .ok [0x54, 0xec, 0xea, 0x25, 0xf2, 0x69, 0x8d, 0x01, 0xe0, 0x97, 0x00] := rfl

/-- `parse_valid_sentence` (`src/sentence.rs`): the `GOOD_CHECKSUM` line frames
to the expected sentence with computed checksum 122. -/
theorem sourceTest_parse_valid_sentence :
    parseNmeaSentence goodChecksumLine = .ok ([], (badChecksumRaw, goodChecksumSentence, 122)) :=
  rfl

/-- `parse_valid_sentence_with_tag_block` (`src/sentence.rs`): a leading
tag block is stripped and the rest parses as without it. -/
theorem sourceTest_parse_tag_block :
    parseNmeaSentence
      (strBytes "\\s:2573345,c:1696241893*00\\!AIVDM,1,1,,A,E>kb9I99S@0`8@:9ah;0TahI7@@;V4=v:nv;h00003vP100,0*7A") =
    parseNmeaSentence goodChecksumLine := rfl

/-- `test_no_channel` (`src/sentence.rs`): an empty channel field frames as
`channel = none`. -/
theorem sourceTest_no_channel :
    (parseNmeaSentence (strBytes "!AIVDM,1,1,,,34RvgN500005tLTMfjiTs3u`0>`<,0*7A")).map
      (fun r => r.2.2.1.channel) = .ok none := rfl

/-- `parse_invalid_structure` (`src/sentence.rs`): a comma inside the payload
position breaks the grammar. -/
theorem sourceTest_parse_invalid_structure :
    (parseAis freshParser
      (strBytes "!AIVDM,1,1,,A,E>kb9I99S@0`8@:9ah;0,TahI7@@;V4=v:nv;h00003vP100,0*8D")
      false).isOk = false := rfl

/-- `parse_multiple_fragments` (`src/sentence.rs`): `FRAGMENT_1` then
`FRAGMENT_2` yield Incomplete then Complete on one parser instance. -/
theorem sourceTest_parse_multiple_fragments :
    parseAis freshParser frag1Line false = .ok (frag1State, .incomplete frag1Sentence) ∧
    parseAis frag1State frag2Line false =
      .ok (⟨some 1, 2, []⟩,
        .complete { frag2Sentence with data := frag1Payload ++ frag2Payload }) :=
  ⟨rfl, rfl⟩

/-- Dispatch sanity: type 21 has a decoder; `signed_i32` on in-range widths. -/
theorem sourceTest_dispatch_and_signed :
    messagesParse [21 <<< 2] = .ok .AidToNavigationReport ∧
    (signed_i32 ([0xFF, 0xFF, 0xFF, 0xFF], 4) 28).map (fun r => r.2) = .ok (-1) ∧
    (signed_i32 ([0x00, 0, 0, 1], 0) 32).map (fun r => r.2) = .ok 0 :=
  ⟨rfl, rfl, by decide⟩

end Ais
